import Mathlib

/-!
Verification of the client script `src/static/app.js` of the
linkedin-profile-reviewer repository.  The script is shallowly embedded:
JavaScript values are the inductive `JSVal`, DOM mutation is explicit state
passing over `DomState`/`PageState`, and code that can throw returns the
thrown value alongside the partially updated state.
-/

namespace App

/-- JavaScript values as produced by `JSON.parse`, plus `undefined`.
Numbers are modelled as rationals; the special doubles `NaN`/`Infinity`
are not modelled (no claim depends on them). -/
inductive JSVal where
  | undefined
  | null
  | bool (b : Bool)
  | num (q : ℚ)
  | str (s : String)
  | arr (elems : List JSVal)
  | obj (fields : List (String × JSVal))
deriving Repr, Inhabited

/-- JavaScript truthiness (`undefined`, `null`, `false`, `0`, `""` are falsy). -/
def truthy : JSVal → Bool
  | .undefined => false
  | .null => false
  | .bool b => b
  | .num q => decide (q ≠ 0)
  | .str s => decide (s ≠ "")
  | .arr _ => true
  | .obj _ => true

def JSVal.isNum : JSVal → Bool
  | .num _ => true
  | _ => false

def JSVal.isStr : JSVal → Bool
  | .str _ => true
  | _ => false

def JSVal.isArr : JSVal → Bool
  | .arr _ => true
  | _ => false

/-- The rational payload of a number value (0 otherwise). -/
def JSVal.asNum : JSVal → ℚ
  | .num q => q
  | _ => 0

/-- Property read `v.k` on a value that is not `undefined`/`null`.
Only objects carry the properties this script reads; duplicate keys
(impossible in the JSON the server sends) resolve to the first binding. -/
def getField (v : JSVal) (k : String) : JSVal :=
  match v with
  | .obj fields =>
    match fields.find? (fun p => p.1 == k) with
    | some p => p.2
    | none => .undefined
  | _ => .undefined

/-- JavaScript `a || b`. -/
def jsOr (a b : JSVal) : JSVal := if truthy a then a else b

/-- `String(q)` for a JavaScript number: integers print in decimal; the
non-integer case is approximated by `num/den` (no claim evaluates it). -/
def ratToString (q : ℚ) : String :=
  if q.den = 1 then toString q.num else toString q.num ++ "/" ++ toString q.den

mutual

/-- JavaScript `String(v)` conversion. -/
def jsToString : JSVal → String
  | .undefined => "undefined"
  | .null => "null"
  | .bool b => if b then "true" else "false"
  | .num q => ratToString q
  | .str s => s
  | .arr xs => jsArrJoin "," xs
  | .obj _ => "[object Object]"

/-- `Array.prototype.join(sep)`: elements stringified with `String`,
except `null`/`undefined` which become the empty string. -/
def jsArrJoin (sep : String) : List JSVal → String
  | [] => ""
  | [v] => jsElemToString v
  | v :: rest => jsElemToString v ++ sep ++ jsArrJoin sep rest

def jsElemToString : JSVal → String
  | .undefined => ""
  | .null => ""
  | v => jsToString v

end

/-- Values thrown inside the script: `Error` instances (including the
built-in `TypeError` raised by a property read on `undefined`/`null`)
versus the one plain object literal thrown by the submit handler. -/
inductive JSException where
  | errorInstance (message : String)
  | plainObject (errorField : String)
deriving Repr, DecidableEq

/-- Property read `v.k` including the throw on `undefined`/`null`. -/
def accessField (v : JSVal) (k : String) : Except JSException JSVal :=
  match v with
  | .undefined =>
    .error (.errorInstance ("Cannot read properties of undefined (reading " ++ k ++ ")"))
  | .null =>
    .error (.errorInstance ("Cannot read properties of null (reading " ++ k ++ ")"))
  | w => .ok (getField w k)

/-- The per-character replacement table of `escapeHtml`
(`src/static/app.js` lines 340-347). -/
def escChar (c : Char) : String :=
  if c = Char.ofNat 38 then "&amp;"
  else if c = Char.ofNat 60 then "&lt;"
  else if c = Char.ofNat 62 then "&gt;"
  else if c = Char.ofNat 34 then "&quot;"
  else if c = Char.ofNat 39 then "&#39;"
  else String.singleton c

/-- `text.replace(/[&<>\"]/g, ...)` on a string: every character is mapped
through the replacement table (the guard `if (!text) return ""` only
matters for the empty string, on which the replacement is a no-op). -/
def escapeHtmlStr (s : String) : String :=
  if s = "" then "" else String.mk (s.data.flatMap (fun c => (escChar c).data))

/-- The JavaScript function `escapeHtml` applied to an arbitrary value:
falsy values return `""`; a truthy non-string has no `.replace` method and
throws a `TypeError`. -/
def escapeHtml (v : JSVal) : Except JSException String :=
  if truthy v then
    match v with
    | .str s => .ok (escapeHtmlStr s)
    | _ => .error (.errorInstance "text.replace is not a function")
  else
    .ok ""

/-- Characters `encodeURIComponent` leaves unescaped:
`A-Z a-z 0-9 - _ . ! ~ * ' ( )`. -/
def isUriUnescaped (c : Char) : Bool :=
  c.isAlpha || c.isDigit ||
    c ∈ ['-', '_', '.', '!', '~', '*', Char.ofNat 39, '(', ')']

/-- Upper-case hexadecimal digit, as emitted by `encodeURIComponent`. -/
def hexDigit (n : Nat) : Char :=
  if n < 10 then Char.ofNat (48 + n) else Char.ofNat (55 + n)

/-- The UTF-8 bytes of a Unicode scalar value. -/
def utf8Bytes (c : Char) : List Nat :=
  let n := c.toNat
  if n < 128 then [n]
  else if n < 2048 then [192 + n / 64, 128 + n % 64]
  else if n < 65536 then [224 + n / 4096, 128 + n / 64 % 64, 128 + n % 64]
  else [240 + n / 262144, 128 + n / 4096 % 64, 128 + n / 64 % 64, 128 + n % 64]

def percentByte (b : Nat) : List Char :=
  ['%', hexDigit (b / 16), hexDigit (b % 16)]

/-- JavaScript `encodeURIComponent` on a string: unescaped characters pass
through, everything else is percent-encoded byte by byte. -/
def encodeURIComponent (s : String) : String :=
  String.mk (s.data.flatMap fun c =>
    if isUriUnescaped c then [c] else (utf8Bytes c).flatMap percentByte)

/-- The five severity classes, in the order `classList.remove` receives
them (`src/static/app.js` lines 123-129). -/
def severityTokens : List String :=
  ["score-excellent", "score-good", "score-average", "score-weak", "score-poor"]

/-- The class added for a numeric score: the `if`/`else if` chain of
`src/static/app.js` lines 132-142. -/
def severityName (s : ℚ) : String :=
  if s ≥ 90 then "score-excellent"
  else if s ≥ 80 then "score-good"
  else if s ≥ 70 then "score-average"
  else if s ≥ 50 then "score-weak"
  else "score-poor"

/-- `classList.remove(t1, ..., tn)`: every listed token disappears. -/
def classListRemove (cs : List String) (toks : List String) : List String :=
  cs.filter (fun c => !toks.contains c)

/-- `classList.add(t)`: appended unless already present. -/
def classListAdd (cs : List String) (t : String) : List String :=
  if cs.contains t then cs else cs ++ [t]

/-- The DOM state `renderReview` mutates.  `certUrl` records the URL the
certificate button's click handler would `window.open`; `shareHref` the
`href` assigned to the share link. -/
structure DomState where
  scoreText : String
  scoreClasses : List String
  scoreActionsHidden : Bool
  certUrl : Option String
  shareHref : Option String
  scoreCardAnimate : Bool
  connectionsText : String
  followersText : String
  profileStatsHidden : Bool
  suggestionsHtml : String
deriving Repr, DecidableEq, Inhabited

/-- The `skillsMissing` constant of `src/static/app.js` lines 211-215:
arrays are joined with `", "`; any other truthy value is stringified;
falsy values render as `"Not specified"`. -/
def skillsMissingOf (v : JSVal) : String :=
  match v with
  | .arr elems => jsArrJoin ", " elems
  | w => if truthy w then jsToString w else "Not specified"

/-- One experience entry (`src/static/app.js` lines 222-228); reading
`item.role` throws when the entry is `undefined`/`null`. -/
def buildExpItem (item : JSVal) : Except JSException String := do
  let roleV ← accessField item "role"
  let role ← escapeHtml (jsOr roleV (.str "Role"))
  let tipsV ← accessField item "tips"
  let tips ← escapeHtml (jsOr tipsV (.str ""))
  pure ("\n          <div class=\"experience-item\">\n            <h4>" ++ role ++
    "</h4>\n            <p>" ++ tips ++ "</p>\n          </div>\n        ")

/-- The `expHtml` constant (`src/static/app.js` lines 217-229). -/
def buildExpHtml (expList : List JSVal) : Except JSException String :=
  if expList.isEmpty then
    pure "<p>No specific experience suggestions returned.</p>"
  else do
    let parts ← expList.mapM buildExpItem
    pure (String.join parts)

/-- The `keywordsHtml` constant (`src/static/app.js` lines 231-234). -/
def buildKeywordsHtml (keywords : List JSVal) : Except JSException String :=
  if keywords.isEmpty then
    pure "<p>No keywords reported.</p>"
  else do
    let pills ← keywords.mapM (fun k => do
      let e ← escapeHtml k
      pure ("<span class=\"pill\">" ++ e ++ "</span>"))
    pure ("<p>" ++ String.intercalate " " pills ++ "</p>")

/-- The literal segments of the template assigned to
`suggestions.innerHTML` (`src/static/app.js` lines 236-294), with the
escaped interpolations spliced in. -/
def suggestionsTemplate (hSug hExp aSug aExp expHtml sMiss sNotes kwHtml summ : String) :
    String :=
  "\n    <section class=\"suggestion-block\">\n      <div class=\"card-header-row\">\n        <h3>Headline</h3>\n        <button type=\"button\" class=\"ghost-btn copy-section-btn\" data-section=\"headline\">\n          Copy text\n        </button>\n      </div>\n      <p class=\"suggestion-main\" data-section-content=\"headline\">\n        " ++
  hSug ++
  "\n      </p>\n      <p class=\"suggestion-note\">\n        <strong>Why:</strong> " ++
  hExp ++
  "\n      </p>\n    </section>\n\n    <section class=\"suggestion-block\">\n      <div class=\"card-header-row\">\n        <h3>About section</h3>\n        <button type=\"button\" class=\"ghost-btn copy-section-btn\" data-section=\"about\">\n          Copy text\n        </button>\n      </div>\n      <p class=\"suggestion-main\" data-section-content=\"about\">\n        " ++
  aSug ++
  "\n      </p>\n      <p class=\"suggestion-note\">\n        <strong>Why:</strong> " ++
  aExp ++
  "\n      </p>\n    </section>\n\n    <section class=\"suggestion-block\">\n      <h3>Experience</h3>\n      " ++
  expHtml ++
  "\n    </section>\n\n    <section class=\"suggestion-block\">\n      <h3>Skills</h3>\n      <p><strong>Missing / gaps:</strong> " ++
  sMiss ++
  "</p>\n      <p><strong>Notes:</strong> " ++
  sNotes ++
  "</p>\n    </section>\n\n    <section class=\"suggestion-block\">\n      <h3>Keywords</h3>\n      " ++
  kwHtml ++
  "\n    </section>\n\n    <section class=\"suggestion-block\">\n      <div class=\"card-header-row\">\n        <h3>Summary</h3>\n        <button type=\"button\" class=\"ghost-btn copy-section-btn\" data-section=\"summary\">\n          Copy text\n        </button>\n      </div>\n      <p class=\"suggestion-main\" data-section-content=\"summary\">\n        " ++
  summ ++
  "\n      </p>\n    </section>\n  "

/-- Evaluation of the constants and template interpolations feeding
`suggestions.innerHTML`, in source order; the first throw aborts before
the assignment. -/
def renderSuggestions (headline about skills summaryV : JSVal)
    (expList keywords : List JSVal) (skillsMissing : String) :
    Except JSException String := do
  let expHtml ← buildExpHtml expList
  let kwHtml ← buildKeywordsHtml keywords
  let hSug ← escapeHtml (jsOr (getField headline "suggestion") (.str ""))
  let hExp ← escapeHtml (jsOr (getField headline "explanation") (.str ""))
  let aSug ← escapeHtml (jsOr (getField about "suggestion") (.str ""))
  let aExp ← escapeHtml (jsOr (getField about "explanation") (.str ""))
  let sMiss ← escapeHtml (.str skillsMissing)
  let sNotes ← escapeHtml (jsOr (getField skills "notes") (.str ""))
  let summ ← escapeHtml (jsOr summaryV (.str ""))
  pure (suggestionsTemplate hSug hExp aSug aExp expHtml sMiss sNotes kwHtml summ)

/-- JavaScript whitespace as recognised by `String.prototype.trim`
(ASCII whitespace plus no-break space; the rarer Unicode space characters
are not modelled, no claim uses them). -/
def isJsWhitespace (c : Char) : Bool :=
  c = Char.ofNat 32 || c = Char.ofNat 9 || c = Char.ofNat 10 || c = Char.ofNat 13
    || c = Char.ofNat 11 || c = Char.ofNat 12 || c = Char.ofNat 160

/-- `String.prototype.trim`: strip leading and trailing whitespace. -/
def jsTrim (s : String) : String :=
  String.mk (((s.data.dropWhile isJsWhitespace).reverse.dropWhile isJsWhitespace).reverse)

/-- The `fullName` constant (`src/static/app.js` lines 147-150): the
trimmed `full_name` when it is a non-blank string, the default display
name otherwise. -/
def fullNameOf (review : JSVal) : String :=
  match getField review "full_name" with
  | .str s => if jsTrim s = "" then "Your LinkedIn Profile" else jsTrim s
  | _ => "Your LinkedIn Profile"

/-- `renderReview` (`src/static/app.js` lines 116-295) as a state
transformer: the returned `DomState` holds every mutation performed
before a throw, and the thrown value rides alongside. -/
def renderReview (origin : String) (review : JSVal) (d0 : DomState) :
    DomState × Option JSException :=
  match accessField review "score" with
  | .error e => (d0, some e)
  | .ok scoreVal =>
    let hasNumericScore := scoreVal.isNum
    let d := { d0 with scoreText := if hasNumericScore then jsToString scoreVal else "—" }
    let removed := classListRemove d.scoreClasses severityTokens
    let d := { d with scoreClasses :=
      if hasNumericScore then classListAdd removed (severityName scoreVal.asNum)
      else removed }
    let fullName := fullNameOf review
    let d := { d with scoreActionsHidden := !hasNumericScore }
    let d :=
      if hasNumericScore then
        let scoreStr := jsToString scoreVal
        let shareText := "I just scored " ++ scoreStr ++
          "/100 on my LinkedIn profile using this AI LinkedIn Profile Reviewer!"
        { d with
          certUrl := some ("/certificate?score=" ++ encodeURIComponent scoreStr ++
            "&name=" ++ encodeURIComponent fullName),
          shareHref := some ("https://www.linkedin.com/sharing/share-offsite/?url=" ++
            encodeURIComponent origin ++ "&mini=true&summary=" ++
            encodeURIComponent shareText) }
      else d
    let d := { d with scoreCardAnimate := true }
    let d := { d with
      connectionsText :=
        if (getField review "connections").isNum then jsToString (getField review "connections")
        else "—",
      followersText :=
        if (getField review "followers").isNum then jsToString (getField review "followers")
        else "—",
      profileStatsHidden := false }
    let headline := jsOr (getField review "headline") (.obj [])
    let about := jsOr (getField review "about") (.obj [])
    let skills := jsOr (getField review "skills") (.obj [])
    let expList := match getField review "experience" with | .arr xs => xs | _ => []
    let keywords := match getField review "keywords" with | .arr xs => xs | _ => []
    let skillsMissing := skillsMissingOf (getField skills "missing")
    match renderSuggestions headline about skills (getField review "summary")
        expList keywords skillsMissing with
    | .ok html => ({ d with suggestionsHtml := html }, none)
    | .error e => (d, some e)

/-- The page-level state driven by the submit handler. -/
structure PageState where
  errorText : String
  errorHidden : Bool
  loadingHidden : Bool
  resultHidden : Bool
  dom : DomState
deriving Repr, DecidableEq, Inhabited

/-- `showError` (`src/static/app.js` lines 326-330). -/
def showError (message : String) (st : PageState) : PageState :=
  { st with errorText := message, errorHidden := false }

/-- `clearError` (`src/static/app.js` lines 332-336). -/
def clearError (st : PageState) : PageState :=
  { st with errorHidden := true, errorText := "" }

/-- Outcome of `fetch("/review", ...)` and `res.json()`: either the fetch
rejects (a `TypeError`, which is an `Error` instance), or a response
arrives with an `ok` flag and a body that may or may not parse as JSON. -/
inductive FetchOutcome where
  | networkFailure (message : String)
  | response (ok : Bool) (body : Option JSVal)

/-- The error message built for a non-OK HTTP response
(`src/static/app.js` lines 51-56); `slice(0, 300)` truncates the
stringified details. -/
def serverErrorMessage (data : JSVal) : String :=
  if truthy data && truthy (getField data "error") then
    jsToString (getField data "error") ++
      (if truthy (getField data "details") then
        " – " ++ (jsToString (getField data "details")).take 300
      else "")
  else "Review failed. Please try again."

/-- `err instanceof Error ? err.message : "Failed to get review."`
(`src/static/app.js` lines 65-66). -/
def displayedMessage : JSException → String
  | .errorInstance m => m
  | .plainObject _ => "Failed to get review."

/-- Lines 23-31 of the submit handler: clear the error box, validate that
a file is selected, and reveal the loading indicator; the Boolean says
whether the request proceeds. -/
def submitPreFetch (fileSelected : Bool) (st : PageState) : PageState × Bool :=
  let st := clearError st
  if !fileSelected then
    (showError "Please select a LinkedIn PDF file." st, false)
  else
    ({ st with loadingHidden := false, resultHidden := true }, true)

/-- The `try`/`catch`/`finally` around the request
(`src/static/app.js` lines 37-70). -/
def submitResponsePhase (origin : String) (outcome : FetchOutcome) (st : PageState) :
    PageState :=
  let run : PageState × Option JSException :=
    match outcome with
    | .networkFailure msg => (st, some (JSException.errorInstance msg))
    | .response ok body =>
      match body with
      | none => (st, some (JSException.plainObject "Server returned an invalid response."))
      | some data =>
        if !ok then
          (st, some (JSException.errorInstance (serverErrorMessage data)))
        else
          match accessField data "review" with
          | .error e => (st, some e)
          | .ok review =>
            match renderReview origin review st.dom with
            | (dom, some e) => ({ st with dom := dom }, some e)
            | (dom, none) => ({ st with dom := dom, resultHidden := false }, none)
  let st :=
    match run with
    | (st, some e) => showError (displayedMessage e) st
    | (st, none) => st
  { st with loadingHidden := true }

/-- One full invocation of the submit handler. -/
def runSubmitAttempt (origin : String) (fileSelected : Bool) (outcome : FetchOutcome)
    (st : PageState) : PageState :=
  let pre := submitPreFetch fileSelected st
  if pre.2 then submitResponsePhase origin outcome pre.1 else pre.1

/-- Visible theme state plus the persisted preference. -/
structure ThemeState where
  bodyDark : Bool
  iconText : String
  labelText : String
  stored : Option String
deriving Repr, DecidableEq, Inhabited

/-- `applyTheme` (`src/static/app.js` lines 76-90). -/
def applyTheme (theme : String) (st : ThemeState) : ThemeState :=
  if theme = "dark" then
    { st with bodyDark := true, iconText := "🌙", labelText := "Dark mode on" }
  else
    { st with bodyDark := false, iconText := "☀️", labelText := "Dark mode" }

/-- The theme-toggle click handler (`src/static/app.js` lines 103-112),
assuming the storage write succeeds. -/
def themeToggleClick (st : ThemeState) : ThemeState :=
  let nextTheme := if st.bodyDark then "light" else "dark"
  let st := applyTheme nextTheme st
  { st with stored := some nextTheme }

/-- The five characters matched by the regex in `escapeHtml`
(`&`, `<`, `>`, `"`, apostrophe, written by code point). -/
def markupChars : List Char :=
  [Char.ofNat 38, Char.ofNat 60, Char.ofNat 62, Char.ofNat 34, Char.ofNat 39]

/-- The characters that would be live markup if inserted raw
(`<`, `>`, `"`, apostrophe). -/
def rawMarkupChars : List Char :=
  [Char.ofNat 60, Char.ofNat 62, Char.ofNat 34, Char.ofNat 39]

lemma escChar_no_raw_bool (a : Char) :
    (escChar a).data.all (fun c => decide (c ∉ rawMarkupChars)) = true := by
  unfold escChar
  split_ifs with h1 h2 h3 h4 h5
  · decide
  · decide
  · decide
  · decide
  · decide
  · simp [String.singleton, rawMarkupChars, h2, h3, h4, h5]

lemma escapeHtml_str_ok (s : String) :
    escapeHtml (JSVal.str s) = Except.ok (escapeHtmlStr s) := by
  by_cases h : s = ""
  · subst h; rfl
  · simp [escapeHtml, truthy, h]

lemma escapeHtmlStr_data (s : String) :
    (escapeHtmlStr s).data = s.data.flatMap (fun c => (escChar c).data) := by
  by_cases h : s = ""
  · subst h; rfl
  · simp [escapeHtmlStr, h]

/-- C1: for every string `s`, `escapeHtml(s)` succeeds and its output is
the concatenation of the per-character images, where each of the five
markup characters maps to its HTML entity and every other character to
itself; consequently the output never contains a raw `<`, `>`, `"` or
apostrophe. -/
theorem escapeHtml_escapes_markup (s : String) :
    escapeHtml (JSVal.str s) = Except.ok (escapeHtmlStr s)
    ∧ (escapeHtmlStr s).data = s.data.flatMap (fun c => (escChar c).data)
    ∧ escChar (Char.ofNat 38) = "&amp;"
    ∧ escChar (Char.ofNat 60) = "&lt;"
    ∧ escChar (Char.ofNat 62) = "&gt;"
    ∧ escChar (Char.ofNat 34) = "&quot;"
    ∧ escChar (Char.ofNat 39) = "&#39;"
    ∧ (∀ c : Char, c ∉ markupChars → escChar c = String.singleton c)
    ∧ (∀ c : Char, c ∈ (escapeHtmlStr s).data → c ∉ rawMarkupChars) := by
  refine ⟨escapeHtml_str_ok s, escapeHtmlStr_data s, by decide, by decide, by decide,
    by decide, by decide, ?_, ?_⟩
  · intro c hc
    simp only [markupChars, List.mem_cons, List.not_mem_nil, or_false, not_or] at hc
    obtain ⟨h1, h2, h3, h4, h5⟩ := hc
    simp [escChar, h1, h2, h3, h4, h5]
  · intro c hc
    rw [escapeHtmlStr_data s] at hc
    rcases List.mem_flatMap.mp hc with ⟨a, _, ha⟩
    have hall := escChar_no_raw_bool a
    rw [List.all_eq_true] at hall
    exact of_decide_eq_true (hall c ha)

/-- Witness for C1 at concrete inputs. -/
theorem escapeHtml_escapes_markup_witness :
    escapeHtml (JSVal.str "a<b") = Except.ok "a&lt;b"
    ∧ escChar (Char.ofNat 120) = String.singleton (Char.ofNat 120)
    ∧ Char.ofNat 97 ∉ rawMarkupChars := by
  have h := escapeHtml_escapes_markup "a<b"
  refine ⟨?_, ?_, ?_⟩
  · rw [h.1]; exact congrArg Except.ok (by decide)
  · exact h.2.2.2.2.2.2.2.1 (Char.ofNat 120) (by decide)
  · exact h.2.2.2.2.2.2.2.2 (Char.ofNat 97) (by decide)

/-- C2: the severity class is a total, mutually exclusive function of the
numeric score with inclusive lower bounds evaluated top-down, and the nine
boundary scores map to the documented tiers. -/
theorem severityName_thresholds (s : ℚ) :
    (severityName s = "score-excellent" ↔ 90 ≤ s)
    ∧ (severityName s = "score-good" ↔ 80 ≤ s ∧ s < 90)
    ∧ (severityName s = "score-average" ↔ 70 ≤ s ∧ s < 80)
    ∧ (severityName s = "score-weak" ↔ 50 ≤ s ∧ s < 70)
    ∧ (severityName s = "score-poor" ↔ s < 50)
    ∧ severityName 90 = "score-excellent" ∧ severityName 89 = "score-good"
    ∧ severityName 80 = "score-good" ∧ severityName 79 = "score-average"
    ∧ severityName 70 = "score-average" ∧ severityName 69 = "score-weak"
    ∧ severityName 50 = "score-weak" ∧ severityName 49 = "score-poor"
    ∧ severityName 0 = "score-poor" := by
  have e90 : severityName (90:ℚ) = "score-excellent" := by norm_num [severityName]
  have e89 : severityName (89:ℚ) = "score-good" := by norm_num [severityName]
  have e80 : severityName (80:ℚ) = "score-good" := by norm_num [severityName]
  have e79 : severityName (79:ℚ) = "score-average" := by norm_num [severityName]
  have e70 : severityName (70:ℚ) = "score-average" := by norm_num [severityName]
  have e69 : severityName (69:ℚ) = "score-weak" := by norm_num [severityName]
  have e50 : severityName (50:ℚ) = "score-weak" := by norm_num [severityName]
  have e49 : severityName (49:ℚ) = "score-poor" := by norm_num [severityName]
  have e0 : severityName (0:ℚ) = "score-poor" := by norm_num [severityName]
  have hiffs : (severityName s = "score-excellent" ↔ 90 ≤ s)
      ∧ (severityName s = "score-good" ↔ 80 ≤ s ∧ s < 90)
      ∧ (severityName s = "score-average" ↔ 70 ≤ s ∧ s < 80)
      ∧ (severityName s = "score-weak" ↔ 50 ≤ s ∧ s < 70)
      ∧ (severityName s = "score-poor" ↔ s < 50) := by
    rcases lt_or_le s 50 with h | h50
    · have hn : severityName s = "score-poor" := by
        simp only [severityName, ge_iff_le]
        rw [if_neg (not_le.mpr (by linarith : s < 90)),
          if_neg (not_le.mpr (by linarith : s < 80)),
          if_neg (not_le.mpr (by linarith : s < 70)), if_neg (not_le.mpr h)]
      rw [hn]
      refine ⟨iff_of_false (by decide) (not_le.mpr (by linarith)),
        iff_of_false (by decide) ?_, iff_of_false (by decide) ?_,
        iff_of_false (by decide) ?_, iff_of_true rfl h⟩
      · rintro ⟨h1, -⟩; linarith
      · rintro ⟨h1, -⟩; linarith
      · rintro ⟨h1, -⟩; linarith
    · rcases lt_or_le s 70 with h70 | h70
      · have hn : severityName s = "score-weak" := by
          simp only [severityName, ge_iff_le]
          rw [if_neg (not_le.mpr (by linarith : s < 90)),
            if_neg (not_le.mpr (by linarith : s < 80)),
            if_neg (not_le.mpr h70), if_pos h50]
        rw [hn]
        refine ⟨iff_of_false (by decide) (not_le.mpr (by linarith)),
          iff_of_false (by decide) ?_, iff_of_false (by decide) ?_,
          iff_of_true rfl ⟨h50, h70⟩,
          iff_of_false (by decide) (not_lt.mpr h50)⟩
        · rintro ⟨h1, -⟩; linarith
        · rintro ⟨h1, -⟩; linarith
      · rcases lt_or_le s 80 with h80 | h80
        · have hn : severityName s = "score-average" := by
            simp only [severityName, ge_iff_le]
            rw [if_neg (not_le.mpr (by linarith : s < 90)),
              if_neg (not_le.mpr h80), if_pos h70]
          rw [hn]
          refine ⟨iff_of_false (by decide) (not_le.mpr (by linarith)),
            iff_of_false (by decide) ?_, iff_of_true rfl ⟨h70, h80⟩,
            iff_of_false (by decide) ?_,
            iff_of_false (by decide) (not_lt.mpr (by linarith))⟩
          · rintro ⟨h1, -⟩; linarith
          · rintro ⟨-, h2⟩; linarith
        · rcases lt_or_le s 90 with h90 | h90
          · have hn : severityName s = "score-good" := by
              simp only [severityName, ge_iff_le]
              rw [if_neg (not_le.mpr h90), if_pos h80]
            rw [hn]
            refine ⟨iff_of_false (by decide) (not_le.mpr h90),
              iff_of_true rfl ⟨h80, h90⟩, iff_of_false (by decide) ?_,
              iff_of_false (by decide) ?_,
              iff_of_false (by decide) (not_lt.mpr (by linarith))⟩
            · rintro ⟨-, h2⟩; linarith
            · rintro ⟨-, h2⟩; linarith
          · have hn : severityName s = "score-excellent" := by
              simp only [severityName, ge_iff_le]
              rw [if_pos h90]
            rw [hn]
            refine ⟨iff_of_true rfl h90, iff_of_false (by decide) ?_,
              iff_of_false (by decide) ?_, iff_of_false (by decide) ?_,
              iff_of_false (by decide) (not_lt.mpr (by linarith))⟩
            · rintro ⟨-, h2⟩; linarith
            · rintro ⟨-, h2⟩; linarith
            · rintro ⟨-, h2⟩; linarith
  exact ⟨hiffs.1, hiffs.2.1, hiffs.2.2.1, hiffs.2.2.2.1, hiffs.2.2.2.2,
    e90, e89, e80, e79, e70, e69, e50, e49, e0⟩

lemma intercalate_go_append (sep : String) :
    ∀ (l : List String) (x y : String),
      String.intercalate.go (x ++ y) sep l = x ++ String.intercalate.go y sep l := by
  intro l
  induction l with
  | nil => intro x y; simp [String.intercalate.go]
  | cons a t ih =>
    intro x y
    rw [show String.intercalate.go (x ++ y) sep (a :: t)
        = String.intercalate.go (x ++ y ++ sep ++ a) sep t from rfl]
    rw [show String.intercalate.go y sep (a :: t)
        = String.intercalate.go (y ++ sep ++ a) sep t from rfl]
    rw [show x ++ y ++ sep ++ a = x ++ (y ++ sep ++ a) by
      simp [String.append_assoc]]
    exact ih x (y ++ sep ++ a)

lemma intercalate_cons_cons (sep s b : String) (t : List String) :
    String.intercalate sep (s :: b :: t) = s ++ sep ++ String.intercalate sep (b :: t) := by
  rw [show String.intercalate sep (s :: b :: t)
      = String.intercalate.go (s ++ sep ++ b) sep t from rfl]
  rw [show String.intercalate sep (b :: t) = String.intercalate.go b sep t from rfl]
  rw [show s ++ sep ++ b = (s ++ sep) ++ b from rfl]
  rw [intercalate_go_append sep t (s ++ sep) b]

lemma jsArrJoin_strings (sep : String) :
    ∀ ss : List String, jsArrJoin sep (ss.map JSVal.str) = String.intercalate sep ss := by
  intro ss
  induction ss with
  | nil => simp [jsArrJoin, String.intercalate]
  | cons s t ih =>
    cases t with
    | nil => simp [jsArrJoin, jsElemToString, jsToString, String.intercalate,
        String.intercalate.go]
    | cons b t2 =>
      rw [intercalate_cons_cons, ← ih]
      simp [jsArrJoin, jsElemToString, jsToString]

/-- C5 counterexample: the rendered text for `skills.missing` is `"5"`,
not `"Not specified"`, when the value is the number `5` (a value that is
neither an array nor a string), and it is `"Not specified"`, not the
string itself, when the value is the empty string. -/
theorem skillsMissingOf_counterexample :
    skillsMissingOf (JSVal.num 5) = "5"
    ∧ skillsMissingOf (JSVal.num 5) ≠ "Not specified"
    ∧ skillsMissingOf (JSVal.str "") = "Not specified"
    ∧ skillsMissingOf (JSVal.str "") ≠ "" := by
  have h5 : skillsMissingOf (JSVal.num 5) = "5" := by
    simp [skillsMissingOf, truthy, jsToString, ratToString]; decide
  have he : skillsMissingOf (JSVal.str "") = "Not specified" := by
    simp [skillsMissingOf, truthy]
  refine ⟨h5, ?_, he, ?_⟩
  · rw [h5]; decide
  · rw [he]; decide

/-- C5 (amended): an array value renders as its elements joined by
`", "` (for string elements, exactly the strings joined); any other
truthy value renders as its `String(...)` conversion — so a non-empty
string renders as itself — and any falsy value (absent field, empty
string, `0`, `false`, `null`) renders as `"Not specified"`. -/
theorem skillsMissingOf_cases :
    (∀ ss : List String,
      skillsMissingOf (JSVal.arr (ss.map JSVal.str)) = String.intercalate ", " ss)
    ∧ (∀ xs : List JSVal, skillsMissingOf (JSVal.arr xs) = jsArrJoin ", " xs)
    ∧ (∀ s : String, s ≠ "" → skillsMissingOf (JSVal.str s) = s)
    ∧ (∀ v : JSVal, v.isArr = false → truthy v = true → skillsMissingOf v = jsToString v)
    ∧ (∀ v : JSVal, v.isArr = false → truthy v = false →
        skillsMissingOf v = "Not specified") := by
  refine ⟨?_, ?_, ?_, ?_, ?_⟩
  · intro ss
    rw [← jsArrJoin_strings ", " ss]
    simp [skillsMissingOf]
  · intro xs; simp [skillsMissingOf]
  · intro s h; simp [skillsMissingOf, truthy, jsToString, h]
  · intro v ha ht
    cases v <;> simp_all [skillsMissingOf, JSVal.isArr]
  · intro v ha ht
    cases v <;> simp_all [skillsMissingOf, JSVal.isArr]

/-- Witness for the amended C5 at concrete inputs. -/
theorem skillsMissingOf_cases_witness :
    skillsMissingOf (JSVal.arr [JSVal.str "Go", JSVal.str "SQL"]) = "Go, SQL"
    ∧ skillsMissingOf (JSVal.str "Rust") = "Rust"
    ∧ skillsMissingOf (JSVal.bool true) = jsToString (JSVal.bool true)
    ∧ skillsMissingOf (JSVal.bool false) = "Not specified" := by
  have h := skillsMissingOf_cases
  refine ⟨?_, ?_, ?_, ?_⟩
  · rw [show (JSVal.arr [JSVal.str "Go", JSVal.str "SQL"])
        = JSVal.arr ((["Go", "SQL"]).map JSVal.str) from rfl]
    rw [h.1 ["Go", "SQL"]]; decide
  · exact h.2.2.1 "Rust" (by decide)
  · exact h.2.2.2.1 (JSVal.bool true) rfl rfl
  · exact h.2.2.2.2 (JSVal.bool false) rfl rfl

/-- C8 counterexample: starting with no persisted value (the state of a
first visit that follows the system preference), two activations of the
toggle leave `"light"` persisted, so the persisted value does not return
to what it was. -/
theorem themeToggle_counterexample :
    (themeToggleClick (themeToggleClick ⟨false, "☀️", "Dark mode", none⟩)).stored
        = some "light"
    ∧ (⟨false, "☀️", "Dark mode", none⟩ : ThemeState).stored ≠ some "light" := by
  constructor
  · rfl
  · decide

/-- C8 (amended): two activations always restore the visible dark-class
state; they restore the persisted value (and the toggle icon and label)
exactly when the starting state is one `applyTheme` + persist produces,
i.e. the persisted value and the icon/label agree with the body class. -/
theorem themeToggle_double_restores :
    (∀ st : ThemeState,
      (themeToggleClick (themeToggleClick st)).bodyDark = st.bodyDark)
    ∧ (∀ st : ThemeState,
        st.stored = some (if st.bodyDark then "dark" else "light") →
        st.iconText = (if st.bodyDark then "🌙" else "☀️") →
        st.labelText = (if st.bodyDark then "Dark mode on" else "Dark mode") →
        themeToggleClick (themeToggleClick st) = st) := by
  constructor
  · intro st
    cases st with
    | mk b i l p => cases b <;> simp [themeToggleClick, applyTheme]
  · intro st h1 h2 h3
    cases st with
    | mk b i l p =>
      cases b <;> simp_all [themeToggleClick, applyTheme]

/-- Witness for the amended C8 at a concrete consistent state. -/
theorem themeToggle_double_restores_witness :
    themeToggleClick (themeToggleClick ⟨true, "🌙", "Dark mode on", some "dark"⟩)
      = (⟨true, "🌙", "Dark mode on", some "dark"⟩ : ThemeState)
    ∧ (themeToggleClick (themeToggleClick ⟨false, "x", "y", none⟩)).bodyDark = false := by
  constructor
  · exact themeToggle_double_restores.2 ⟨true, "🌙", "Dark mode on", some "dark"⟩ rfl rfl rfl
  · exact themeToggle_double_restores.1 ⟨false, "x", "y", none⟩

/-- C6: when a file is selected, the loading indicator is revealed before
the request is issued, the request proceeds, and after the handler
completes the indicator is hidden again on every possible outcome
(success, server error, unparseable body, thrown network failure). -/
theorem loading_lifecycle (origin : String) (outcome : FetchOutcome) (st : PageState) :
    (submitPreFetch true st).1.loadingHidden = false
    ∧ (submitPreFetch true st).2 = true
    ∧ (runSubmitAttempt origin true outcome st).loadingHidden = true := by
  refine ⟨rfl, rfl, ?_⟩
  cases outcome with
  | networkFailure msg => rfl
  | response ok body => rfl

/-- C4 is a code bug: when the response body cannot be parsed as JSON the
handler throws the plain object literal carrying the message
`"Server returned an invalid response."`, but the catch clause only reads
`.message` from `Error` instances, so the user sees the generic
`"Failed to get review."` instead — for every HTTP status.  The dead
invalid-response string is never displayed. -/
theorem invalid_json_shows_generic_fallback (origin : String) (k : Bool) (st : PageState) :
    (runSubmitAttempt origin true (.response k none) st).errorText = "Failed to get review."
    ∧ (runSubmitAttempt origin true (.response k none) st).errorHidden = false
    ∧ displayedMessage (.plainObject "Server returned an invalid response.")
        = "Failed to get review."
    ∧ "Failed to get review." ≠ "Server returned an invalid response." := by
  refine ⟨rfl, rfl, rfl, by decide⟩

lemma accessField_ok (v : JSVal) (h1 : v ≠ JSVal.undefined) (h2 : v ≠ JSVal.null)
    (k : String) : accessField v k = .ok (getField v k) := by
  cases v <;> simp_all [accessField]

lemma renderReview_fields (origin : String) (review : JSVal) (d : DomState)
    (h1 : review ≠ JSVal.undefined) (h2 : review ≠ JSVal.null) :
    (renderReview origin review d).1.scoreText
      = (if (getField review "score").isNum then jsToString (getField review "score")
        else "—")
    ∧ (renderReview origin review d).1.scoreClasses
      = (if (getField review "score").isNum then
          classListAdd (classListRemove d.scoreClasses severityTokens)
            (severityName (getField review "score").asNum)
        else classListRemove d.scoreClasses severityTokens)
    ∧ (renderReview origin review d).1.scoreActionsHidden
      = !(getField review "score").isNum
    ∧ (renderReview origin review d).1.certUrl
      = (if (getField review "score").isNum then
          some ("/certificate?score="
            ++ encodeURIComponent (jsToString (getField review "score"))
            ++ "&name=" ++ encodeURIComponent (fullNameOf review))
        else d.certUrl)
    ∧ (renderReview origin review d).1.shareHref
      = (if (getField review "score").isNum then
          some ("https://www.linkedin.com/sharing/share-offsite/?url="
            ++ encodeURIComponent origin ++ "&mini=true&summary="
            ++ encodeURIComponent ("I just scored "
              ++ jsToString (getField review "score")
              ++ "/100 on my LinkedIn profile using this AI LinkedIn Profile Reviewer!"))
        else d.shareHref)
    ∧ (renderReview origin review d).1.connectionsText
      = (if (getField review "connections").isNum
        then jsToString (getField review "connections") else "—")
    ∧ (renderReview origin review d).1.followersText
      = (if (getField review "followers").isNum
        then jsToString (getField review "followers") else "—")
    ∧ (renderReview origin review d).1.profileStatsHidden = false := by
  unfold renderReview
  rw [accessField_ok review h1 h2 "score"]
  by_cases hn : (getField review "score").isNum = true
  · simp only [hn]
    split <;> simp
  · rw [Bool.not_eq_true] at hn
    simp only [hn]
    split <;> simp

lemma severityName_mem (q : ℚ) : severityTokens.contains (severityName q) = true := by
  unfold severityName
  split_ifs <;> decide

lemma countSev_remove (cs : List String) :
    (classListRemove cs severityTokens).countP (fun c => severityTokens.contains c) = 0 := by
  rw [List.countP_eq_zero]
  intro a ha
  rw [classListRemove, List.mem_filter] at ha
  simpa using ha.2

lemma countSev_add (cs : List String) (t : String)
    (ht : severityTokens.contains t = true)
    (h0 : cs.countP (fun c => severityTokens.contains c) = 0) :
    (classListAdd cs t).countP (fun c => severityTokens.contains c) = 1 := by
  have hmem : t ∉ cs := by
    intro hm
    rw [List.countP_eq_zero] at h0
    exact (h0 t hm) ht
  have hc : cs.contains t = false := by
    cases hc : cs.contains t
    · rfl
    · exact absurd (by simpa using hc) hmem
  have ht2 : t ∈ severityTokens := by simpa using ht
  rw [classListAdd, if_neg (by simpa [hc] using hmem), List.countP_append, h0,
    List.countP_cons, List.countP_nil]
  simp [ht2]

/-- C9: after any call of `renderReview` on an accessible review value,
the score element carries exactly one of the five severity classes when
`review.score` is a number and none at all otherwise — whatever classes it
carried before — and the score-actions region is hidden exactly when the
score is not a number. -/
theorem severity_class_invariant (origin : String) (review : JSVal) (d : DomState)
    (h1 : review ≠ JSVal.undefined) (h2 : review ≠ JSVal.null) :
    ((renderReview origin review d).1.scoreClasses.countP
        (fun c => severityTokens.contains c)
      = if (getField review "score").isNum then 1 else 0)
    ∧ (renderReview origin review d).1.scoreActionsHidden
      = !(getField review "score").isNum := by
  refine ⟨?_, (renderReview_fields origin review d h1 h2).2.2.1⟩
  rw [(renderReview_fields origin review d h1 h2).2.1]
  by_cases hn : (getField review "score").isNum = true
  · rw [hn]
    exact countSev_add _ _ (severityName_mem _) (countSev_remove _)
  · rw [Bool.not_eq_true] at hn
    rw [hn]
    exact countSev_remove _

/-- Witness for C9 at concrete inputs: an empty review object (score
absent) yields zero severity classes and hides the actions region, even
when the element previously carried severity classes. -/
theorem severity_class_invariant_witness :
    ((renderReview "" (JSVal.obj [])
        { (default : DomState) with
          scoreClasses := ["score-good", "score-poor", "x"] }).1.scoreClasses.countP
        (fun c => severityTokens.contains c) = 0)
    ∧ (renderReview "" (JSVal.obj [])
        { (default : DomState) with
          scoreClasses := ["score-good", "score-poor", "x"] }).1.scoreActionsHidden
      = true := by
  have h := severity_class_invariant "" (JSVal.obj [])
    { (default : DomState) with scoreClasses := ["score-good", "score-poor", "x"] }
    (fun hx => nomatch hx) (fun hx => nomatch hx)
  simpa [getField, JSVal.isNum] using h

/-- C7: for a review with score 85 and full name `"Jane Doe"`, the
certificate button opens `/certificate?score=85&name=Jane%20Doe` and the
share link is the LinkedIn share-offsite URL embedding the URL-encoded
page origin and the encoded share sentence, which contains `85%2F100`. -/
theorem certificate_and_share_links (origin : String) (d : DomState) :
    (renderReview origin
        (JSVal.obj [("score", JSVal.num 85), ("full_name", JSVal.str "Jane Doe")])
        d).1.certUrl
      = some "/certificate?score=85&name=Jane%20Doe"
    ∧ (renderReview origin
        (JSVal.obj [("score", JSVal.num 85), ("full_name", JSVal.str "Jane Doe")])
        d).1.shareHref
      = some ("https://www.linkedin.com/sharing/share-offsite/?url="
          ++ encodeURIComponent origin
          ++ "&mini=true&summary=I%20just%20scored%2085%2F100%20on%20my%20LinkedIn%20profile%20using%20this%20AI%20LinkedIn%20Profile%20Reviewer!")
    ∧ ("85%2F100").data
        <:+: ("I%20just%20scored%2085%2F100%20on%20my%20LinkedIn%20profile%20using%20this%20AI%20LinkedIn%20Profile%20Reviewer!").data := by
  have h := renderReview_fields origin
    (JSVal.obj [("score", JSVal.num 85), ("full_name", JSVal.str "Jane Doe")]) d
    (fun hx => nomatch hx) (fun hx => nomatch hx)
  have hg : getField
      (JSVal.obj [("score", JSVal.num 85), ("full_name", JSVal.str "Jane Doe")]) "score"
      = JSVal.num 85 := rfl
  have hjs : jsToString (JSVal.num 85) = "85" := by
    simp [jsToString, ratToString]; decide
  refine ⟨?_, ?_, ?_⟩
  · rw [h.2.2.2.1, hg, hjs]
    rw [show fullNameOf
        (JSVal.obj [("score", JSVal.num 85), ("full_name", JSVal.str "Jane Doe")])
        = "Jane Doe" by decide]
    rfl
  · rw [h.2.2.2.2.1, hg, hjs]
    rw [show encodeURIComponent
        ("I just scored " ++ "85"
          ++ "/100 on my LinkedIn profile using this AI LinkedIn Profile Reviewer!")
        = "I%20just%20scored%2085%2F100%20on%20my%20LinkedIn%20profile%20using%20this%20AI%20LinkedIn%20Profile%20Reviewer!"
        by decide]
    rw [String.append_assoc]
    rw [show ("&mini=true&summary=" : String)
        ++ "I%20just%20scored%2085%2F100%20on%20my%20LinkedIn%20profile%20using%20this%20AI%20LinkedIn%20Profile%20Reviewer!"
        = "&mini=true&summary=I%20just%20scored%2085%2F100%20on%20my%20LinkedIn%20profile%20using%20this%20AI%20LinkedIn%20Profile%20Reviewer!"
        by decide]
    rfl
  · exact ⟨("I%20just%20scored%20").data,
      ("%20on%20my%20LinkedIn%20profile%20using%20this%20AI%20LinkedIn%20Profile%20Reviewer!").data,
      by decide⟩

/-- A value is safe to pass through `escapeHtml` (it is falsy, or a
string); a truthy non-string would make `escapeHtml` throw. -/
def escSafe (v : JSVal) : Bool := !truthy v || v.isStr

def notNullish : JSVal → Bool
  | .undefined => false
  | .null => false
  | _ => true

/-- An experience entry the renderer survives: not `undefined`/`null`
(reading `.role` would throw), with escape-safe `role` and `tips`. -/
def expItemSafe (item : JSVal) : Bool :=
  notNullish item && escSafe (getField item "role") && escSafe (getField item "tips")

/-- Every value the renderer passes to `escapeHtml` is escape-safe. -/
def safeTexts (review : JSVal) : Bool :=
  escSafe (getField (jsOr (getField review "headline") (.obj [])) "suggestion")
  && escSafe (getField (jsOr (getField review "headline") (.obj [])) "explanation")
  && escSafe (getField (jsOr (getField review "about") (.obj [])) "suggestion")
  && escSafe (getField (jsOr (getField review "about") (.obj [])) "explanation")
  && escSafe (getField (jsOr (getField review "skills") (.obj [])) "notes")
  && escSafe (getField review "summary")
  && (match getField review "experience" with | .arr xs => xs | _ => []).all expItemSafe
  && (match getField review "keywords" with | .arr xs => xs | _ => []).all escSafe

lemma escapeHtml_ok_of_safe (v : JSVal) (h : escSafe v = true) :
    ∃ s, escapeHtml v = .ok s := by
  cases ht : truthy v
  · exact ⟨"", by simp [escapeHtml, ht]⟩
  · rw [escSafe, ht] at h
    cases v <;> simp_all [JSVal.isStr]
    exact ⟨_, escapeHtml_str_ok _⟩

lemma escapeHtml_or_ok (v : JSVal) (dflt : String) (h : escSafe v = true) :
    ∃ s, escapeHtml (jsOr v (.str dflt)) = .ok s := by
  rw [jsOr]
  cases ht : truthy v
  · simp only [Bool.false_eq_true, if_false]
    exact ⟨_, escapeHtml_str_ok _⟩
  · simp only [if_true]
    exact escapeHtml_ok_of_safe v h

lemma accessField_ok_of_notNullish (v : JSVal) (h : notNullish v = true) (k : String) :
    accessField v k = .ok (getField v k) := by
  cases v <;> simp_all [accessField, notNullish]

lemma buildExpItem_ok (item : JSVal) (h : expItemSafe item = true) :
    ∃ s, buildExpItem item = .ok s := by
  rw [expItemSafe, Bool.and_eq_true, Bool.and_eq_true] at h
  obtain ⟨⟨hnn, hrole⟩, htips⟩ := h
  obtain ⟨r, hr⟩ := escapeHtml_or_ok _ "Role" hrole
  obtain ⟨t, ht⟩ := escapeHtml_or_ok _ "" htips
  cases hb : buildExpItem item with
  | ok s => exact ⟨s, rfl⟩
  | error e =>
    rw [buildExpItem] at hb
    simp only [accessField_ok_of_notNullish item hnn, hr, ht, bind, Except.bind,
      pure, Except.pure] at hb
    exact Except.noConfusion hb

lemma mapM_expItems_ok (l : List JSVal) (h : l.all expItemSafe = true) :
    ∃ rs, l.mapM buildExpItem = Except.ok rs := by
  induction l with
  | nil => exact ⟨[], rfl⟩
  | cons a t ih =>
    rw [List.all_cons, Bool.and_eq_true] at h
    obtain ⟨r, hr⟩ := buildExpItem_ok a h.1
    obtain ⟨rs, hrs⟩ := ih h.2
    refine ⟨r :: rs, ?_⟩
    rw [List.mapM_cons, hr, hrs]
    rfl

lemma buildExpHtml_ok (l : List JSVal) (h : l.all expItemSafe = true) :
    ∃ s, buildExpHtml l = .ok s := by
  cases l with
  | nil => exact ⟨_, rfl⟩
  | cons a t =>
    obtain ⟨rs, hrs⟩ := mapM_expItems_ok (a :: t) h
    cases hb : buildExpHtml (a :: t) with
    | ok s => exact ⟨s, rfl⟩
    | error e =>
      rw [buildExpHtml] at hb
      simp only [List.isEmpty_cons, Bool.false_eq_true, if_false, hrs, bind,
        Except.bind, pure, Except.pure] at hb
      exact Except.noConfusion hb

lemma mapM_keywords_ok (l : List JSVal) (h : l.all escSafe = true) :
    ∃ rs, l.mapM (fun k => do
      let e ← escapeHtml k
      pure ("<span class=\"pill\">" ++ e ++ "</span>")) = Except.ok rs := by
  induction l with
  | nil => exact ⟨[], rfl⟩
  | cons a t ih =>
    rw [List.all_cons, Bool.and_eq_true] at h
    obtain ⟨e, he⟩ := escapeHtml_ok_of_safe a h.1
    obtain ⟨rs, hrs⟩ := ih h.2
    refine ⟨("<span class=\"pill\">" ++ e ++ "</span>") :: rs, ?_⟩
    rw [List.mapM_cons]
    simp only [bind, Except.bind, pure, Except.pure] at hrs ⊢
    rw [he, hrs]

lemma buildKeywordsHtml_ok (l : List JSVal) (h : l.all escSafe = true) :
    ∃ s, buildKeywordsHtml l = .ok s := by
  cases l with
  | nil => exact ⟨_, rfl⟩
  | cons a t =>
    obtain ⟨rs, hrs⟩ := mapM_keywords_ok (a :: t) h
    cases hb : buildKeywordsHtml (a :: t) with
    | ok s => exact ⟨s, rfl⟩
    | error e =>
      rw [buildKeywordsHtml] at hb
      simp only [List.isEmpty_cons, Bool.false_eq_true, if_false, bind,
        Except.bind, pure, Except.pure] at hb hrs
      rw [hrs] at hb
      exact Except.noConfusion hb

lemma renderSuggestions_ok (headline about skills summaryV : JSVal)
    (expList keywords : List JSVal) (skillsMissing : String)
    (hh1 : escSafe (getField headline "suggestion") = true)
    (hh2 : escSafe (getField headline "explanation") = true)
    (ha1 : escSafe (getField about "suggestion") = true)
    (ha2 : escSafe (getField about "explanation") = true)
    (hsn : escSafe (getField skills "notes") = true)
    (hsum : escSafe summaryV = true)
    (he : expList.all expItemSafe = true)
    (hk : keywords.all escSafe = true) :
    ∃ html, renderSuggestions headline about skills summaryV expList keywords skillsMissing
      = .ok html := by
  obtain ⟨s1, h1⟩ := buildExpHtml_ok expList he
  obtain ⟨s2, h2⟩ := buildKeywordsHtml_ok keywords hk
  obtain ⟨s3, h3⟩ := escapeHtml_or_ok _ "" hh1
  obtain ⟨s4, h4⟩ := escapeHtml_or_ok _ "" hh2
  obtain ⟨s5, h5⟩ := escapeHtml_or_ok _ "" ha1
  obtain ⟨s6, h6⟩ := escapeHtml_or_ok _ "" ha2
  obtain ⟨s7, h7⟩ := escapeHtml_or_ok _ "" hsn
  obtain ⟨s8, h8⟩ := escapeHtml_or_ok _ "" hsum
  cases hb : renderSuggestions headline about skills summaryV expList keywords
      skillsMissing with
  | ok s => exact ⟨s, rfl⟩
  | error e =>
    rw [renderSuggestions] at hb
    simp only [h1, h2, h3, h4, h5, h6, escapeHtml_str_ok skillsMissing, h7, h8,
      bind, Except.bind, pure, Except.pure] at hb
    exact Except.noConfusion hb

/-- C3 counterexample: a review whose only field is the wrong-typed
`summary: 7` makes `renderReview` throw (`7` is truthy but has no
`.replace`), so the renderer is not total on wrong-typed fields. -/
theorem renderReview_throws_on_wrong_typed_summary :
    (renderReview "" (JSVal.obj [("summary", JSVal.num 7)]) default).2
      = some (JSException.errorInstance "text.replace is not a function") := rfl

/-- C3 (amended): for every review object in which any combination of the
optional fields is missing — and more generally whenever every value that
reaches `escapeHtml` is falsy or a string — `renderReview` does not throw,
and it substitutes the documented neutral placeholders: `"—"` for a
non-numeric score / connections / followers, `"Not specified"` for an
unusable `skills.missing`, and the empty string (never `"undefined"`) for
missing text fields.  A truthy non-string in a text position (e.g.
`summary: 7`) still throws. -/
theorem renderReview_robust (origin : String) (review : JSVal) (d : DomState)
    (h1 : review ≠ JSVal.undefined) (h2 : review ≠ JSVal.null)
    (hs : safeTexts review = true) :
    (renderReview origin review d).2 = none
    ∧ ((getField review "score").isNum = false →
        (renderReview origin review d).1.scoreText = "—")
    ∧ ((getField review "connections").isNum = false →
        (renderReview origin review d).1.connectionsText = "—")
    ∧ ((getField review "followers").isNum = false →
        (renderReview origin review d).1.followersText = "—")
    ∧ skillsMissingOf JSVal.undefined = "Not specified"
    ∧ jsOr JSVal.undefined (JSVal.str "") = JSVal.str ""
    ∧ escapeHtml (JSVal.str "") = Except.ok "" := by
  have hf := renderReview_fields origin review d h1 h2
  refine ⟨?_, ?_, ?_, ?_, by simp [skillsMissingOf, truthy], rfl, rfl⟩
  · rw [safeTexts] at hs
    simp only [Bool.and_eq_true] at hs
    obtain ⟨⟨⟨⟨⟨⟨⟨hh1, hh2⟩, ha1⟩, ha2⟩, hsn⟩, hsum⟩, he⟩, hk⟩ := hs
    obtain ⟨html, hok⟩ := renderSuggestions_ok
      (jsOr (getField review "headline") (.obj []))
      (jsOr (getField review "about") (.obj []))
      (jsOr (getField review "skills") (.obj []))
      (getField review "summary")
      (match getField review "experience" with | .arr xs => xs | _ => [])
      (match getField review "keywords" with | .arr xs => xs | _ => [])
      (skillsMissingOf (getField (jsOr (getField review "skills") (.obj [])) "missing"))
      hh1 hh2 ha1 ha2 hsn hsum he hk
    unfold renderReview
    rw [accessField_ok review h1 h2 "score"]
    simp only [hok]
  · intro h
    rw [hf.1, h]
    rfl
  · intro h
    rw [hf.2.2.2.2.2.1, h]
    rfl
  · intro h
    rw [hf.2.2.2.2.2.2.1, h]
    rfl

/-- Witness for the amended C3: the empty review object renders without
throwing and shows the placeholders. -/
theorem renderReview_robust_witness :
    (renderReview "" (JSVal.obj []) default).2 = none
    ∧ (renderReview "" (JSVal.obj []) default).1.scoreText = "—"
    ∧ (renderReview "" (JSVal.obj []) default).1.connectionsText = "—" := by
  have h := renderReview_robust "" (JSVal.obj []) default
    (fun hx => nomatch hx) (fun hx => nomatch hx) (by decide)
  exact ⟨h.1, h.2.1 rfl, h.2.2.1 rfl⟩

/-- C10: for an HTTP-OK response whose parsed JSON object has no usable
`review` field (`undefined` or `null`), `renderReview` throws on its very
first property access without touching the DOM state, the catch branch
shows that `TypeError` message in the error region, the result container
stays hidden, and the loading indicator is still cleared. -/
theorem missing_review_flow (origin : String) (st : PageState)
    (fields : List (String × JSVal))
    (h : getField (JSVal.obj fields) "review" = JSVal.undefined
      ∨ getField (JSVal.obj fields) "review" = JSVal.null) :
    (∀ d : DomState, renderReview origin JSVal.undefined d
      = (d, some (JSException.errorInstance
          "Cannot read properties of undefined (reading score)")))
    ∧ (∀ d : DomState, renderReview origin JSVal.null d
      = (d, some (JSException.errorInstance
          "Cannot read properties of null (reading score)")))
    ∧ (runSubmitAttempt origin true (.response true (some (JSVal.obj fields)))
        st).errorHidden = false
    ∧ (getField (JSVal.obj fields) "review" = JSVal.undefined →
        (runSubmitAttempt origin true (.response true (some (JSVal.obj fields)))
          st).errorText = "Cannot read properties of undefined (reading score)")
    ∧ (getField (JSVal.obj fields) "review" = JSVal.null →
        (runSubmitAttempt origin true (.response true (some (JSVal.obj fields)))
          st).errorText = "Cannot read properties of null (reading score)")
    ∧ (runSubmitAttempt origin true (.response true (some (JSVal.obj fields)))
        st).resultHidden = true
    ∧ (runSubmitAttempt origin true (.response true (some (JSVal.obj fields)))
        st).loadingHidden = true := by
  rcases h with h | h
  · have hflow : runSubmitAttempt origin true (.response true (some (JSVal.obj fields))) st
        = { errorText := "Cannot read properties of undefined (reading score)",
            errorHidden := false, loadingHidden := true, resultHidden := true,
            dom := st.dom } := by
      simp only [runSubmitAttempt, submitPreFetch, submitResponsePhase, clearError,
        showError, displayedMessage, accessField]
      rw [h]
      rfl
    refine ⟨fun d => rfl, fun d => rfl, ?_, ?_, ?_, ?_, ?_⟩
    · rw [hflow]
    · intro h2; rw [hflow]
    · intro h2; rw [h] at h2; exact nomatch h2
    · rw [hflow]
    · rw [hflow]
  · have hflow : runSubmitAttempt origin true (.response true (some (JSVal.obj fields))) st
        = { errorText := "Cannot read properties of null (reading score)",
            errorHidden := false, loadingHidden := true, resultHidden := true,
            dom := st.dom } := by
      simp only [runSubmitAttempt, submitPreFetch, submitResponsePhase, clearError,
        showError, displayedMessage, accessField]
      rw [h]
      rfl
    refine ⟨fun d => rfl, fun d => rfl, ?_, ?_, ?_, ?_, ?_⟩
    · rw [hflow]
    · intro h2; rw [h] at h2; exact nomatch h2
    · intro h2; rw [hflow]
    · rw [hflow]
    · rw [hflow]

/-- Witness for C10: a response body whose `review` field is `null`. -/
theorem missing_review_flow_witness :
    (runSubmitAttempt "" true
        (.response true (some (JSVal.obj [("review", JSVal.null)]))) default).errorText
      = "Cannot read properties of null (reading score)"
    ∧ (runSubmitAttempt "" true
        (.response true (some (JSVal.obj [("review", JSVal.null)]))) default).resultHidden
      = true
    ∧ (runSubmitAttempt "" true
        (.response true (some (JSVal.obj [("review", JSVal.null)]))) default).loadingHidden
      = true := by
  have h := missing_review_flow "" default [("review", JSVal.null)] (Or.inr rfl)
  exact ⟨h.2.2.2.2.1 rfl, h.2.2.2.2.2.1, h.2.2.2.2.2.2⟩

end App
